import Mathlib

/-!
Verification of the intent-classification / routing / retrieval / synthesis
core of the INTELLIGENT-COMMERCE-AI repository, shallowly embedded in Lean.

Conventions of the embedding:
* Python strings are modelled as `List Char`; `str.lower()` is `lowerStr`,
  and the Python substring test `kw in s` is `containsSub`.
* Python floats are modelled as rationals (`ℚ`).  Every arithmetic fact we
  evaluate concretely is exact in binary floating point as well.
* Calls into external collaborators (graph store, vector index, LLM) are
  modelled as explicit environment records passed to the embedded
  functions; a call that may raise is an `Except String` value.
-/

/-- Lowercasing of a Python string (`str.lower()`), mapped over characters. -/
def lowerStr (s : List Char) : List Char := s.map Char.toLower

/-- Python substring containment `needle in hay`. -/
def containsSub (needle : List Char) : List Char → Bool
  | [] => needle.isPrefixOf ([] : List Char)
  | c :: rest => needle.isPrefixOf (c :: rest) || containsSub needle rest

/-- `any(keyword in q for keyword in kws)`. -/
def containsAny (q : List Char) (kws : List (List Char)) : Bool :=
  kws.any (fun k => containsSub k q)

/-- The seven primary intent tags of `Orchestrator._analyze_intent`. -/
inductive IntentType where
  | comparison
  | counting
  | spec_search
  | filtered_search
  | complex_search
  | review_search
  | general
deriving DecidableEq, Repr

/-- The intent record built by `Orchestrator._analyze_intent`. -/
structure Intent where
  type : IntentType
  needs_filtering : Bool
  needs_reviews : Bool
  needs_comparison : Bool
  is_counting : Bool
  is_spec_query : Bool
deriving DecidableEq, Repr

/-- `comparison_keywords` from `_analyze_intent` (orchestrator.py line 158). -/
def comparisonKeywords : List (List Char) :=
  ["compare".data, "vs".data, "versus".data, "difference between".data,
   "which is better".data, "or".data]

/-- `counting_keywords` from `_analyze_intent`. -/
def countingKeywords : List (List Char) :=
  ["how many".data, "count".data, "number of".data, "total".data]

/-- `spec_keywords` from `_analyze_intent`. -/
def specKeywords : List (List Char) :=
  ["ram".data, "storage".data, "display".data, "screen".data, "battery".data,
   "camera".data, "processor".data, "gb".data, "tb".data, "inch".data]

/-- `spec_operators` from `_analyze_intent`. -/
def specOperators : List (List Char) :=
  [">".data, "<".data, "more than".data, "less than".data, "at least".data,
   "above".data, "below".data, "minimum".data, "maximum".data]

/-- `price_keywords` from `_analyze_intent` (orchestrator.py line 181). -/
def priceKeywords : List (List Char) :=
  ["under".data, "below".data, "budget".data, "cheap".data, "affordable".data,
   "price".data, "within".data, "₹".data, "between".data, "around".data]

/-- `review_keywords` from `_analyze_intent` (orchestrator.py lines 187-189). -/
def reviewKeywords : List (List Char) :=
  ["review".data, "rating".data, "good".data, "best".data, "quality".data,
   "recommend".data, "opinion".data, "battery".data, "camera".data,
   "performance".data, "think".data, "say".data, "customers".data,
   "feedback".data, "worth".data, "reliable".data, "durable".data]

/-- The neutral intent record `_analyze_intent` starts from. -/
def baseIntent : Intent :=
  { type := .general, needs_filtering := false, needs_reviews := false,
    needs_comparison := false, is_counting := false, is_spec_query := false }

/-- Shallow embedding of `Orchestrator._analyze_intent` (orchestrator.py
lines 144-197): ordered keyword checks over the lowercased query, where the
comparison, counting and spec checks return immediately and the price and
review checks mutate the record in sequence. -/
def analyzeIntent (query : List Char) : Intent :=
  let q := lowerStr query
  if containsAny q comparisonKeywords then
    { baseIntent with needs_comparison := true, type := .comparison }
  else if containsAny q countingKeywords then
    { baseIntent with is_counting := true, type := .counting }
  else if containsAny q specKeywords && containsAny q specOperators then
    { baseIntent with is_spec_query := true, type := .spec_search }
  else
    let i1 :=
      if containsAny q priceKeywords then
        { baseIntent with needs_filtering := true, type := .filtered_search }
      else baseIntent
    if containsAny q reviewKeywords then
      { i1 with
        needs_reviews := true
        type := (if i1.type = IntentType.filtered_search then
                   IntentType.complex_search
                 else IntentType.review_search) }
    else i1

example : (analyzeIntent "compare cheap phones".data).type = .comparison := by decide
example : (analyzeIntent "storage".data).type = .comparison := by decide
example : (analyzeIntent "how many brands".data).type = .counting := by decide
example : (analyzeIntent "laptops under 50000".data).type = .filtered_search := by decide

/-- Modelled from the spec: the words of a query, splitting at
non-alphanumeric characters; used only to express the spec-side notion of
the word `or` occurring bare (as a standalone word) in claim C8. -/
def wordsOf (q : List Char) : List (List Char) :=
  (q.splitOnP (fun c => !c.isAlphanum)).filter (fun w => w ≠ [])

/-- The five multi-character comparison keywords of C8 (all but `or`). -/
def longComparisonKeywords : List (List Char) :=
  ["compare".data, "vs".data, "versus".data, "difference between".data,
   "which is better".data]

/-- Modelled from the spec: comparison-keyword presence as claim C8 words
it — one of the five long keywords as a substring, or `or` as a bare
standalone word. -/
def specComparisonKeyword (q : List Char) : Bool :=
  containsAny q longComparisonKeywords || (wordsOf q).contains "or".data

/-- Claim C1: a query containing both a comparison keyword and a price
keyword is classified with primary tag `comparison`; the comparison check
returns immediately, so the price branch is never evaluated and the
`needs_filtering` flag stays false. -/
theorem intent_comparison_priority (q : List Char)
    (hc : containsAny (lowerStr q) comparisonKeywords = true)
    (_hp : containsAny (lowerStr q) priceKeywords = true) :
    (analyzeIntent q).type = IntentType.comparison ∧
    (analyzeIntent q).needs_filtering = false := by
  simp [analyzeIntent, hc, baseIntent]

/-- Witness for C1 at the concrete query "compare phones under budget". -/
theorem intent_comparison_priority_witness :
    containsAny (lowerStr "compare phones under budget".data) comparisonKeywords = true ∧
    containsAny (lowerStr "compare phones under budget".data) priceKeywords = true ∧
    (analyzeIntent "compare phones under budget".data).type = IntentType.comparison := by
  exact ⟨by decide, by decide,
    (intent_comparison_priority ("compare phones under budget".data)
      (by decide) (by decide)).1⟩

/-- Counterexample to claim C8: the classifier tests `or` by substring
containment, so the query "storage" — whose only occurrence of the letters
`or` is inside the word storage — is classified as comparison, although the
claim says it must not be. -/
theorem intent_bare_or_counterexample :
    specComparisonKeyword (lowerStr "storage".data) = false ∧
    (analyzeIntent "storage".data).type = IntentType.comparison :=
  ⟨by decide, by decide⟩

/-- Amended C8: the classifier assigns primary tag `comparison` iff one of
the six comparison keywords — including `or` — occurs as a substring of the
lowercased query (so `or` also matches inside words such as storage). -/
theorem intent_comparison_iff (q : List Char) :
    (analyzeIntent q).type = IntentType.comparison ↔
      containsAny (lowerStr q) comparisonKeywords = true := by
  by_cases h1 : containsAny (lowerStr q) comparisonKeywords = true
  · simp [analyzeIntent, h1]
  · have hc : containsAny (lowerStr q) comparisonKeywords = false := by
      simpa using h1
    simp only [analyzeIntent, hc, Bool.false_eq_true, if_false]
    split_ifs <;> simp [baseIntent, h1]

/-- Catalog view of one product, as returned by
`graph_tools.get_product_by_id` plus `get_product_specs`. -/
structure ProductData where
  name : String
  brand : String
  category : String
  price : ℚ
  specs : List (String × String)
deriving DecidableEq, Repr

/-- The backing stores the compare pipeline reads: the graph catalog
(`get_product_by_id`, `get_product_specs`) and the review metadata the
vector index aggregates (`get_product_reviews`, reduced here to the list of
ratings, the only field the sentiment summary arithmetic uses). -/
structure CatalogDB where
  product : String → Option ProductData
  reviews : String → List ℚ

/-- Result of `vector_tools.get_product_sentiment_summary`: review count
and average rating (0 when the product has no reviews). -/
structure Sentiment where
  review_count : ℕ
  average_rating : ℚ
deriving DecidableEq, Repr

/-- Shallow embedding of `get_product_sentiment_summary`
(vector_tools.py lines 108-129): count 0 and average 0.0 without reviews,
else the arithmetic mean of the ratings. -/
def sentimentSummary (db : CatalogDB) (pid : String) : Sentiment :=
  match db.reviews pid with
  | [] => { review_count := 0, average_rating := 0 }
  | r :: rs => { review_count := (r :: rs).length
                 average_rating := (r :: rs).sum / (r :: rs).length }

/-- One entry of the `products` list that `compare_products` builds. -/
structure ComparedProduct where
  id : String
  name : String
  brand : String
  category : String
  price : ℚ
  review_count : ℕ
  average_rating : ℚ
  specs : List (String × String)
deriving DecidableEq, Repr

/-- The comparison dictionary built by `CompareTools.compare_products`. -/
structure Comparisons where
  products : List ComparedProduct
  price_winner : Option String
  rating_winner : Option String
  spec_comparison : List (String × List (String × String))
deriving DecidableEq, Repr

/-- Python `min(l, key=key)` on a non-empty list: the fold keeps the current
best and replaces it only on a strictly smaller key, so the first element
attaining the minimum wins. -/
def listMinBy (key : α → ℚ) : List α → Option α
  | [] => none
  | x :: xs => some (xs.foldl (fun b y => if key y < key b then y else b) x)

/-- Python `max(l, key=key)` on a non-empty list: replaces only on a
strictly larger key, so the first element attaining the maximum wins. -/
def listMaxBy (key : α → ℚ) : List α → Option α
  | [] => none
  | x :: xs => some (xs.foldl (fun b y => if key b < key y then y else b) x)

/-- Spec keys present on every compared product, keyed in first-product
order (`CompareTools._compare_specs`; Python iterates a set of common keys,
whose order is unspecified — no claim depends on that order). -/
def compareSpecs (products : List ComparedProduct) : List (String × List (String × String)) :=
  match products with
  | [] => []
  | p0 :: _ =>
    let commonKeys := (p0.specs.map Prod.fst).filter
      (fun k => products.all (fun p => (p.specs.map Prod.fst).contains k))
    commonKeys.map (fun k =>
      (k, products.map (fun p =>
        (p.name, ((p.specs.find? (fun kv => kv.fst = k)).map Prod.snd).getD ""))))

/-- Shallow embedding of `CompareTools.compare_products` (compare_tools.py
lines 86-140): ids failing `get_product_by_id` are silently skipped; the
price winner is the first product with minimal price; the rating winner is
the first product maximising the rating key
`average_rating if average_rating > 0 else 0`.  `buildCompared` is the
loop body, one entry per resolvable id. -/
def buildCompared (db : CatalogDB) (pid : String) : Option ComparedProduct :=
  match db.product pid with
  | none => none
  | some p =>
    let s := sentimentSummary db pid
    some { id := pid, name := p.name, brand := p.brand
           category := p.category, price := p.price
           review_count := s.review_count
           average_rating := s.average_rating, specs := p.specs }

/-- Shallow embedding of `CompareTools.compare_products`, assembling the
entries and the two winners (compare_tools.py lines 86-140). -/
def compareProducts (db : CatalogDB) (ids : List String) : Comparisons :=
  let products := ids.filterMap (buildCompared db)
  match products with
  | [] => { products := [], price_winner := none, rating_winner := none
            spec_comparison := [] }
  | _ :: _ =>
    { products := products
      price_winner := (listMinBy (fun x => x.price) products).map (fun x => x.id)
      rating_winner := (listMaxBy
        (fun x => if 0 < x.average_rating then x.average_rating else 0)
        products).map (fun x => x.id)
      spec_comparison := compareSpecs products }

/-- `m` is the first element of `l` attaining the minimum of `key`:
`l` splits around `m`, `m` is a minimiser, and everything before `m` is
strictly larger. -/
def IsFirstMin (key : α → ℚ) (l : List α) (m : α) : Prop :=
  ∃ l1 l2, l = l1 ++ m :: l2 ∧ (∀ y ∈ l, key m ≤ key y) ∧ ∀ y ∈ l1, key m < key y

/-- `m` is the first element of `l` attaining the maximum of `key`. -/
def IsFirstMax (key : α → ℚ) (l : List α) (m : α) : Prop :=
  ∃ l1 l2, l = l1 ++ m :: l2 ∧ (∀ y ∈ l, key y ≤ key m) ∧ ∀ y ∈ l1, key y < key m

theorem foldl_isFirstMin (key : α → ℚ) :
    ∀ (xs : List α) (x : α),
      IsFirstMin key (x :: xs)
        (xs.foldl (fun b y => if key y < key b then y else b) x) := by
  intro xs
  induction xs with
  | nil =>
    intro x
    refine ⟨[], [], rfl, ?_, by simp⟩
    intro y hy
    rw [List.mem_singleton] at hy
    simp [hy]
  | cons y ys ih =>
    intro x
    rw [List.foldl_cons]
    by_cases hxy : key y < key x
    · rw [if_pos hxy]
      obtain ⟨l1, l2, hdec, hmin, hstrict⟩ := ih y
      have hmy : key (ys.foldl (fun b y => if key y < key b then y else b) y) ≤ key y :=
        hmin y (List.mem_cons_self y ys)
      refine ⟨x :: l1, l2, by rw [List.cons_append, ← hdec], ?_, ?_⟩
      · intro z hz
        rcases List.mem_cons.mp hz with hzx | hz'
        · subst hzx
          exact le_of_lt (lt_of_le_of_lt hmy hxy)
        · exact hmin z hz'
      · intro z hz
        rcases List.mem_cons.mp hz with hzx | hz'
        · subst hzx
          exact lt_of_le_of_lt hmy hxy
        · exact hstrict z hz'
    · rw [if_neg hxy]
      have hxley : key x ≤ key y := le_of_not_lt hxy
      obtain ⟨l1, l2, hdec, hmin, hstrict⟩ := ih x
      cases l1 with
      | nil =>
        simp only [List.nil_append] at hdec
        injection hdec with h1 h2
        refine ⟨[], y :: ys, by rw [List.nil_append, ← h1], ?_, by simp⟩
        intro z hz
        rcases List.mem_cons.mp hz with hzx | hz'
        · subst hzx
          rw [← h1]
        rcases List.mem_cons.mp hz' with hzy | hz''
        · subst hzy
          rw [← h1]
          exact hxley
        · exact hmin z (List.mem_cons_of_mem _ hz'')
      | cons a l1' =>
        rw [List.cons_append] at hdec
        injection hdec with h1 h2
        subst h1
        refine ⟨x :: y :: l1', l2,
          by rw [List.cons_append, List.cons_append, ← h2], ?_, ?_⟩
        · intro z hz
          rcases List.mem_cons.mp hz with hzx | hz'
          · subst hzx
            exact hmin z (List.mem_cons_self z ys)
          rcases List.mem_cons.mp hz' with hzy | hz''
          · subst hzy
            exact le_of_lt (lt_of_lt_of_le (hstrict x (List.mem_cons_self x l1')) hxley)
          · exact hmin z (List.mem_cons_of_mem _ hz'')
        · intro z hz
          rcases List.mem_cons.mp hz with hzx | hz'
          · subst hzx
            exact hstrict z (List.mem_cons_self z l1')
          rcases List.mem_cons.mp hz' with hzy | hz''
          · subst hzy
            exact lt_of_lt_of_le (hstrict x (List.mem_cons_self x l1')) hxley
          · exact hstrict z (List.mem_cons_of_mem _ hz'')

theorem foldl_isFirstMax (key : α → ℚ) :
    ∀ (xs : List α) (x : α),
      IsFirstMax key (x :: xs)
        (xs.foldl (fun b y => if key b < key y then y else b) x) := by
  intro xs
  induction xs with
  | nil =>
    intro x
    refine ⟨[], [], rfl, ?_, by simp⟩
    intro y hy
    rw [List.mem_singleton] at hy
    simp [hy]
  | cons y ys ih =>
    intro x
    rw [List.foldl_cons]
    by_cases hxy : key x < key y
    · rw [if_pos hxy]
      obtain ⟨l1, l2, hdec, hmax, hstrict⟩ := ih y
      have hmy : key y ≤ key (ys.foldl (fun b y => if key b < key y then y else b) y) :=
        hmax y (List.mem_cons_self y ys)
      refine ⟨x :: l1, l2, by rw [List.cons_append, ← hdec], ?_, ?_⟩
      · intro z hz
        rcases List.mem_cons.mp hz with hzx | hz'
        · subst hzx
          exact le_of_lt (lt_of_lt_of_le hxy hmy)
        · exact hmax z hz'
      · intro z hz
        rcases List.mem_cons.mp hz with hzx | hz'
        · subst hzx
          exact lt_of_lt_of_le hxy hmy
        · exact hstrict z hz'
    · rw [if_neg hxy]
      have hylex : key y ≤ key x := le_of_not_lt hxy
      obtain ⟨l1, l2, hdec, hmax, hstrict⟩ := ih x
      cases l1 with
      | nil =>
        simp only [List.nil_append] at hdec
        injection hdec with h1 h2
        refine ⟨[], y :: ys, by rw [List.nil_append, ← h1], ?_, by simp⟩
        intro z hz
        rcases List.mem_cons.mp hz with hzx | hz'
        · subst hzx
          rw [← h1]
        rcases List.mem_cons.mp hz' with hzy | hz''
        · subst hzy
          rw [← h1]
          exact hylex
        · exact hmax z (List.mem_cons_of_mem _ hz'')
      | cons a l1' =>
        rw [List.cons_append] at hdec
        injection hdec with h1 h2
        subst h1
        refine ⟨x :: y :: l1', l2,
          by rw [List.cons_append, List.cons_append, ← h2], ?_, ?_⟩
        · intro z hz
          rcases List.mem_cons.mp hz with hzx | hz'
          · subst hzx
            exact hmax z (List.mem_cons_self z ys)
          rcases List.mem_cons.mp hz' with hzy | hz''
          · subst hzy
            exact le_of_lt (lt_of_le_of_lt hylex (hstrict x (List.mem_cons_self x l1')))
          · exact hmax z (List.mem_cons_of_mem _ hz'')
        · intro z hz
          rcases List.mem_cons.mp hz with hzx | hz'
          · subst hzx
            exact hstrict z (List.mem_cons_self z l1')
          rcases List.mem_cons.mp hz' with hzy | hz''
          · subst hzy
            exact lt_of_le_of_lt hylex (hstrict x (List.mem_cons_self x l1'))
          · exact hstrict z (List.mem_cons_of_mem _ hz'')

theorem listMinBy_isFirstMin (key : α → ℚ) (l : List α) (m : α)
    (h : listMinBy key l = some m) : IsFirstMin key l m := by
  cases l with
  | nil => simp [listMinBy] at h
  | cons x xs =>
    simp only [listMinBy, Option.some.injEq] at h
    rw [← h]
    exact foldl_isFirstMin key xs x

theorem listMaxBy_isFirstMax (key : α → ℚ) (l : List α) (m : α)
    (h : listMaxBy key l = some m) : IsFirstMax key l m := by
  cases l with
  | nil => simp [listMaxBy] at h
  | cons x xs =>
    simp only [listMaxBy, Option.some.injEq] at h
    rw [← h]
    exact foldl_isFirstMax key xs x

theorem compareProducts_products (db : CatalogDB) (ids : List String) :
    (compareProducts db ids).products = ids.filterMap (buildCompared db) := by
  unfold compareProducts
  cases h : ids.filterMap (buildCompared db) with
  | nil => simp [h]
  | cons x xs => simp [h]

theorem compareProducts_winners_eq (db : CatalogDB) (ids : List String)
    (x : ComparedProduct) (xs : List ComparedProduct)
    (hP : ids.filterMap (buildCompared db) = x :: xs) :
    (compareProducts db ids).price_winner =
      (listMinBy (fun p => p.price) (x :: xs)).map (fun p => p.id) ∧
    (compareProducts db ids).rating_winner =
      (listMaxBy (fun p => if 0 < p.average_rating then p.average_rating else 0)
        (x :: xs)).map (fun p => p.id) := by
  unfold compareProducts
  simp [hP]

theorem mem_compareProducts_fields {db : CatalogDB} {ids : List String}
    {p : ComparedProduct} (hp : p ∈ (compareProducts db ids).products) :
    p.review_count = (sentimentSummary db p.id).review_count ∧
    p.average_rating = (sentimentSummary db p.id).average_rating := by
  rw [compareProducts_products] at hp
  obtain ⟨pid, _hmem, hbuild⟩ := List.mem_filterMap.mp hp
  unfold buildCompared at hbuild
  cases hdb : db.product pid with
  | none => rw [hdb] at hbuild; exact absurd hbuild (by simp)
  | some pd =>
    rw [hdb] at hbuild
    simp only [Option.some.injEq] at hbuild
    rw [← hbuild]
    exact ⟨rfl, rfl⟩

theorem sentiment_count_zero_avg {db : CatalogDB} {pid : String}
    (h : (sentimentSummary db pid).review_count = 0) :
    (sentimentSummary db pid).average_rating = 0 := by
  unfold sentimentSummary at *
  cases hr : db.reviews pid with
  | nil => simp [hr]
  | cons r rs => rw [hr] at h; simp at h

theorem sentiment_avg_pos {db : CatalogDB} {pid : String}
    (hrat : ∀ r ∈ db.reviews pid, (1:ℚ) ≤ r)
    (h : 0 < (sentimentSummary db pid).review_count) :
    0 < (sentimentSummary db pid).average_rating := by
  unfold sentimentSummary at *
  cases hr : db.reviews pid with
  | nil => rw [hr] at h; simp at h
  | cons r rs =>
    rw [hr] at hrat
    simp only [hr]
    have h1 : (0:ℚ) < r :=
      lt_of_lt_of_le zero_lt_one (hrat r (List.mem_cons_self r rs))
    have h2 : (0:ℚ) ≤ rs.sum := List.sum_nonneg (fun t ht =>
      le_trans zero_le_one (hrat t (List.mem_cons_of_mem _ ht)))
    have hsum : 0 < (r :: rs).sum := by
      rw [List.sum_cons]; linarith
    have hlen : (0:ℚ) < ((r :: rs).length : ℚ) := by
      simp only [List.length_cons]
      positivity
    exact div_pos hsum hlen

theorem listMinBy_some (key : α → ℚ) (x : α) (xs : List α) :
    ∃ m, listMinBy key (x :: xs) = some m ∧ IsFirstMin key (x :: xs) m :=
  ⟨_, rfl, foldl_isFirstMin key xs x⟩

theorem listMaxBy_some (key : α → ℚ) (x : α) (xs : List α) :
    ∃ m, listMaxBy key (x :: xs) = some m ∧ IsFirstMax key (x :: xs) m :=
  ⟨_, rfl, foldl_isFirstMax key xs x⟩

/-- Amended C2: for a comparison built from at least 2 resolved products
whose stored ratings are all at least 1, `price_winner` is the
first-encountered product of minimum price, and — provided at least one
compared product has a review — `rating_winner` is a reviewed product
bounding every reviewed product's average rating, every product before it
failing to do so; a zero-review product is then never the rating winner.
(The original claim fails when no compared product has any review: see the
counterexample.) -/
theorem compare_winners (db : CatalogDB) (ids : List String)
    (hrat : ∀ pid, ∀ r ∈ db.reviews pid, (1:ℚ) ≤ r)
    (h2 : 2 ≤ (compareProducts db ids).products.length)
    (hrev : ∃ p ∈ (compareProducts db ids).products, 0 < p.review_count) :
    (∃ m, (compareProducts db ids).price_winner = some m.id ∧
        IsFirstMin (fun p => p.price) (compareProducts db ids).products m) ∧
    (∃ w l1 l2, (compareProducts db ids).products = l1 ++ w :: l2 ∧
        (compareProducts db ids).rating_winner = some w.id ∧
        0 < w.review_count ∧
        (∀ p ∈ (compareProducts db ids).products, 0 < p.review_count →
            p.average_rating ≤ w.average_rating) ∧
        (∀ p ∈ l1, ¬ (0 < p.review_count ∧ w.average_rating ≤ p.average_rating))) := by
  cases hP : ids.filterMap (buildCompared db) with
  | nil =>
    rw [compareProducts_products, hP] at h2
    simp at h2
  | cons x xs =>
    obtain ⟨hpw, hrw⟩ := compareProducts_winners_eq db ids x xs hP
    have hprod : (compareProducts db ids).products = x :: xs := by
      rw [compareProducts_products, hP]
    have hmem_avg : ∀ p ∈ (compareProducts db ids).products,
        (0 < p.review_count → 0 < p.average_rating) ∧
        (p.review_count = 0 → p.average_rating = 0) := by
      intro p hp
      obtain ⟨hc, ha⟩ := mem_compareProducts_fields hp
      constructor
      · intro hcount
        rw [ha]
        exact sentiment_avg_pos (hrat p.id) (hc ▸ hcount)
      · intro hcount
        rw [ha]
        exact sentiment_count_zero_avg (hc ▸ hcount)
    constructor
    · obtain ⟨m, hm, hfm⟩ := listMinBy_some (fun p : ComparedProduct => p.price) x xs
      refine ⟨m, ?_, ?_⟩
      · rw [hpw, hm]
        rfl
      · rw [hprod]
        exact hfm
    · obtain ⟨w, hw, hfm⟩ := listMaxBy_some
        (fun p : ComparedProduct =>
          if 0 < p.average_rating then p.average_rating else 0) x xs
      obtain ⟨l1, l2, hdec, hmaxle, hstrict⟩ := hfm
      obtain ⟨p0, hp0mem, hp0count⟩ := hrev
      have hp0avg : 0 < p0.average_rating := (hmem_avg p0 hp0mem).1 hp0count
      have hp0in : p0 ∈ x :: xs := by rw [← hprod]; exact hp0mem
      have h1 : (if 0 < p0.average_rating then p0.average_rating else 0) ≤
          (if 0 < w.average_rating then w.average_rating else 0) := hmaxle p0 hp0in
      rw [if_pos hp0avg] at h1
      have hkw : 0 < (if 0 < w.average_rating then w.average_rating else 0) :=
        lt_of_lt_of_le hp0avg h1
      have hwavg : 0 < w.average_rating := by
        by_cases hn : 0 < w.average_rating
        · exact hn
        · rw [if_neg hn] at hkw
          exact absurd hkw (lt_irrefl 0)
      have hwin : w ∈ (compareProducts db ids).products := by
        rw [hprod, hdec]
        exact List.mem_append_right _ (List.mem_cons_self _ _)
      have hwcount : 0 < w.review_count := by
        rcases Nat.eq_zero_or_pos w.review_count with h0 | hpos
        · exact absurd ((hmem_avg w hwin).2 h0) (ne_of_gt hwavg)
        · exact hpos
      refine ⟨w, l1, l2, ?_, ?_, hwcount, ?_, ?_⟩
      · rw [hprod]
        exact hdec
      · rw [hrw, hw]
        rfl
      · intro p hp hpc
        have hpavg : 0 < p.average_rating := (hmem_avg p hp).1 hpc
        have h3 : (if 0 < p.average_rating then p.average_rating else 0) ≤
            (if 0 < w.average_rating then w.average_rating else 0) := by
          apply hmaxle
          rw [← hprod]
          exact hp
        rw [if_pos hpavg, if_pos hwavg] at h3
        exact h3
      · rintro p hpl1 ⟨hpc, hple⟩
        have hpin : p ∈ (compareProducts db ids).products := by
          rw [hprod, hdec]
          exact List.mem_append_left _ hpl1
        have hpavg : 0 < p.average_rating := (hmem_avg p hpin).1 hpc
        have hlt : (if 0 < p.average_rating then p.average_rating else 0) <
            (if 0 < w.average_rating then w.average_rating else 0) := hstrict p hpl1
        rw [if_pos hpavg, if_pos hwavg] at hlt
        exact absurd hple (not_le_of_lt hlt)

/-- A two-product catalog where both products carry one review. -/
def dbTwoReviewed : CatalogDB :=
  { product := fun pid =>
      if pid = "a" then
        some { name := "A", brand := "BA", category := "C", price := 10, specs := [] }
      else if pid = "b" then
        some { name := "B", brand := "BB", category := "C", price := 20, specs := [] }
      else none
    reviews := fun _ => [4] }

/-- A two-product catalog where no product has any review. -/
def dbNoReviews : CatalogDB :=
  { product := fun pid =>
      if pid = "a" then
        some { name := "A", brand := "BA", category := "C", price := 10, specs := [] }
      else if pid = "b" then
        some { name := "B", brand := "BB", category := "C", price := 20, specs := [] }
      else none
    reviews := fun _ => [] }

/-- Witness for the amended C2 at a concrete two-product comparison. -/
theorem compare_winners_witness :
    ∃ m, (compareProducts dbTwoReviewed ["a", "b"]).price_winner = some m.id ∧
      IsFirstMin (fun p => p.price)
        (compareProducts dbTwoReviewed ["a", "b"]).products m :=
  (compare_winners dbTwoReviewed ["a", "b"]
    (fun _pid r hr => by
      simp only [dbTwoReviewed, List.mem_singleton] at hr
      rw [hr]
      norm_num)
    (by decide) (by decide)).1

/-- Counterexample to claim C2 as stated: in a comparison of 2 resolved
products none of which has any review, the rating winner is the first
product, which has zero reviews — so a zero-review product can be the
`rating_winner`. -/
theorem compare_rating_winner_counterexample :
    (compareProducts dbNoReviews ["a", "b"]).products.length = 2 ∧
    (compareProducts dbNoReviews ["a", "b"]).rating_winner = some "a" ∧
    ∀ p ∈ (compareProducts dbNoReviews ["a", "b"]).products,
      p.review_count = 0 := by
  exact ⟨by decide, by decide, by decide⟩

/-- The scoring weights passed as `criteria` to `recommend_best`; every
caller in the repository supplies both keys, so the dictionary defaults
(0.5) of `criteria.get` never fire and the weights are plain fields. -/
structure Criteria where
  price : ℚ
  rating : ℚ
deriving DecidableEq, Repr

/-- The recommendation dictionary of `CompareTools.recommend_best`
(`recommended_id`, `recommended_name`, normalized `score`, reason text and
the winning entry as `details`). -/
structure Recommendation where
  recommended_id : String
  recommended_name : String
  score : ℚ
  reason : String
  details : ComparedProduct
deriving DecidableEq, Repr

/-- Per-product weighted score of `recommend_best` (compare_tools.py lines
226-237): inverted normalized price plus normalized rating, each weighted.
The `else 1/2` branch mirrors the Python `else 0.5` and is dead, because
the caller coerces an empty price range to 1. -/
def scoreOf (min_price price_range max_rating : ℚ) (criteria : Criteria)
    (p : ComparedProduct) : ℚ :=
  (if 0 < price_range then 1 - (p.price - min_price) / price_range else 1/2)
    * criteria.price
  + (if 0 < max_rating then p.average_rating / max_rating else 0)
    * criteria.rating

/-- Python `max(products, key=lambda x: x.score)`. -/
def bestOf (score : ComparedProduct → ℚ) (p0 : ComparedProduct)
    (rest : List ComparedProduct) : ComparedProduct :=
  rest.foldl (fun b y => if score b < score y then y else b) p0

/-- The body of `recommend_best` on a non-empty product list
(compare_tools.py lines 215-257): price range coerced to 1 when all prices
are equal, `max_rating` coerced to 1 when the rating maximum is 0 (the
Python `or 1`), weighted scores, first-encountered best, reasons. -/
def recommendFrom (criteria : Criteria) (p0 : ComparedProduct)
    (rest : List ComparedProduct) : Recommendation :=
  let max_price := (rest.map (fun p => p.price)).foldl max p0.price
  let min_price := (rest.map (fun p => p.price)).foldl min p0.price
  let price_range := if max_price ≠ min_price then max_price - min_price else 1
  let mr0 := (rest.map (fun p => p.average_rating)).foldl max p0.average_rating
  let max_rating := if mr0 = 0 then 1 else mr0
  let score := scoreOf min_price price_range max_rating criteria
  let best := bestOf score p0 rest
  let reasons :=
    (if best.price = min_price then ["lowest price"] else []) ++
    (if best.average_rating = max_rating then ["highest rating"] else []) ++
    (if 10 < best.review_count then
      [toString best.review_count ++ " customer reviews"] else [])
  { recommended_id := best.id, recommended_name := best.name
    score := score best
    reason := (if reasons = [] then "Best overall score"
               else "Best choice based on " ++ String.intercalate ", " reasons)
    details := best }

/-- Shallow embedding of `CompareTools.recommend_best`: `none` models the
no-products dictionary, which carries no `recommended_name`. -/
def recommendBest (db : CatalogDB) (ids : List String) (criteria : Criteria) :
    Option Recommendation :=
  match (compareProducts db ids).products with
  | [] => none
  | p0 :: rest => some (recommendFrom criteria p0 rest)

/-- A two-product catalog with equal prices and no reviews. -/
def dbEqualPrices : CatalogDB :=
  { product := fun pid =>
      if pid = "a" then
        some { name := "A", brand := "BA", category := "C", price := 1000, specs := [] }
      else if pid = "b" then
        some { name := "B", brand := "BB", category := "C", price := 1000, specs := [] }
      else none
    reviews := fun _ => [] }

/-- Claim C5 names a code bug: the `else 0.5` branch of the price score is
dead — the caller coerces an empty price range to 1, which is positive, so
with all prices equal every product gets price score 1 (not the documented
0.5).  Concretely, with two equal-priced unreviewed products and balanced
weights the winning score is 1/2 = 1 * 0.5 + 0 * 0.5, where the claimed
price score of 0.5 would have produced 1/4. -/
theorem price_score_equal_prices_bug :
    (∀ min_price max_price : ℚ, min_price ≤ max_price →
        0 < (if max_price ≠ min_price then max_price - min_price else 1)) ∧
    (recommendBest dbEqualPrices ["a", "b"] ⟨1/2, 1/2⟩).map
        (fun r => r.score) = some (1/2) ∧
    ((1:ℚ)/2 ≠ 1/4) := by
  have hP : (compareProducts dbEqualPrices ["a", "b"]).products =
      [{ id := "a", name := "A", brand := "BA", category := "C", price := 1000,
         review_count := 0, average_rating := 0, specs := [] },
       { id := "b", name := "B", brand := "BB", category := "C", price := 1000,
         review_count := 0, average_rating := 0, specs := [] }] := by decide
  refine ⟨?_, ?_, by norm_num⟩
  swap
  · rw [recommendBest, hP]
    simp only [recommendFrom, scoreOf, bestOf, List.map_cons, List.map_nil,
      List.foldl_cons, List.foldl_nil, Option.map_some]
    norm_num
  intro min_price max_price hle
  by_cases h : max_price = min_price
  · rw [if_neg (by simp [h])]
    exact one_pos
  · rw [if_pos h]
    exact sub_pos.mpr (lt_of_le_of_ne hle (fun hcon => h hcon.symm))

/-- Witness for the dead-branch conjunct of the C5 theorem. -/
theorem price_score_equal_prices_bug_witness :
    0 < (if (5:ℚ) ≠ 3 then (5:ℚ) - 3 else 1) :=
  price_score_equal_prices_bug.1 3 5 (by norm_num)

theorem bestOf_smul (g : ComparedProduct → ℚ) (c : ℚ) (hc : 0 < c) :
    ∀ (rest : List ComparedProduct) (p0 : ComparedProduct),
      bestOf (fun p => c * g p) p0 rest = bestOf g p0 rest := by
  intro rest
  induction rest with
  | nil => intro p0; rfl
  | cons y ys ih =>
    intro p0
    unfold bestOf at ih ⊢
    rw [List.foldl_cons, List.foldl_cons]
    have h : (if c * g p0 < c * g y then y else p0)
        = (if g p0 < g y then y else p0) := by
      by_cases h : g p0 < g y
      · rw [if_pos h, if_pos ((mul_lt_mul_left hc).mpr h)]
      · rw [if_neg h, if_neg (fun hcon => h ((mul_lt_mul_left hc).mp hcon))]
    rw [h]
    exact ih _

theorem recommendFrom_rescale (wp wr c : ℚ) (hc : 0 < c)
    (p0 : ComparedProduct) (rest : List ComparedProduct) :
    (recommendFrom ⟨c * wp, c * wr⟩ p0 rest).recommended_id
      = (recommendFrom ⟨wp, wr⟩ p0 rest).recommended_id ∧
    (recommendFrom ⟨c * wp, c * wr⟩ p0 rest).score
      = c * (recommendFrom ⟨wp, wr⟩ p0 rest).score := by
  have hs : ∀ mp pr mr : ℚ, scoreOf mp pr mr ⟨c * wp, c * wr⟩
      = fun p => c * scoreOf mp pr mr ⟨wp, wr⟩ p := by
    intro mp pr mr
    funext p
    simp only [scoreOf]
    ring
  constructor
  · simp only [recommendFrom, hs, bestOf_smul _ c hc]
  · simp only [recommendFrom, hs, bestOf_smul _ c hc]

/-- Amended C6: uniformly rescaling both weights by a positive constant
preserves the recommended product id, while the winning score is
multiplied by the same constant (so the score itself is NOT invariant, see
the counterexample). -/
theorem recommend_rescaling (db : CatalogDB) (ids : List String)
    (wp wr c : ℚ) (hc : 0 < c)
    (h2 : 2 ≤ (compareProducts db ids).products.length) :
    (recommendBest db ids ⟨c * wp, c * wr⟩).map (fun r => r.recommended_id)
      = (recommendBest db ids ⟨wp, wr⟩).map (fun r => r.recommended_id) ∧
    (recommendBest db ids ⟨c * wp, c * wr⟩).map (fun r => r.score)
      = (recommendBest db ids ⟨wp, wr⟩).map (fun r => c * r.score) := by
  cases hP : (compareProducts db ids).products with
  | nil => rw [hP] at h2; simp at h2
  | cons p0 rest =>
    have h := recommendFrom_rescale wp wr c hc p0 rest
    simp only [recommendBest, hP]
    exact ⟨by simp [h.1], by simp [h.2]⟩

/-- Witness for the amended C6 at a concrete two-product comparison with
scale factor 2. -/
theorem recommend_rescaling_witness :
    (recommendBest dbNoReviews ["a", "b"] ⟨2 * (1/2), 2 * (1/2)⟩).map
        (fun r => r.recommended_id)
      = (recommendBest dbNoReviews ["a", "b"] ⟨1/2, 1/2⟩).map
        (fun r => r.recommended_id) :=
  (recommend_rescaling dbNoReviews ["a", "b"] (1/2) (1/2) 2
    (by norm_num) (by decide)).1

/-- Counterexample to claim C6 as stated: rescaling the balanced weights by
c = 2 doubles the recommendation score (1 versus 1/2) on a concrete
two-product comparison, so the score is not invariant. -/
theorem recommend_rescaling_counterexample :
    (recommendBest dbNoReviews ["a", "b"] ⟨2 * (1/2), 2 * (1/2)⟩).map
        (fun r => r.score) = some 1 ∧
    (recommendBest dbNoReviews ["a", "b"] ⟨1/2, 1/2⟩).map
        (fun r => r.score) = some (1/2) ∧
    some (1:ℚ) ≠ some (1/2 : ℚ) := by
  have hP : (compareProducts dbNoReviews ["a", "b"]).products =
      [{ id := "a", name := "A", brand := "BA", category := "C", price := 10,
         review_count := 0, average_rating := 0, specs := [] },
       { id := "b", name := "B", brand := "BB", category := "C", price := 20,
         review_count := 0, average_rating := 0, specs := [] }] := by decide
  refine ⟨?_, ?_, by norm_num⟩
  · rw [recommendBest, hP]
    simp only [recommendFrom, scoreOf, bestOf, List.map_cons, List.map_nil,
      List.foldl_cons, List.foldl_nil, Option.map_some]
    norm_num
  · rw [recommendBest, hP]
    simp only [recommendFrom, scoreOf, bestOf, List.map_cons, List.map_nil,
      List.foldl_cons, List.foldl_nil, Option.map_some]
    norm_num

/-- Environment of the compare pipeline: the catalog plus the two external
calls CompareAgent makes — LLM product-name extraction (the list the LLM
returned for this query, empty when it answered NONE or threw) and
name-to-id search (`search_products_by_name` as the full relevance-ordered
id list; the code only ever takes the first hit, so the limit arguments 5
and 3 do not matter). -/
structure CompareEnv where
  db : CatalogDB
  extractNames : List String
  search : String → List String

/-- Tokens of a product name longer than 3 characters
(compare_tools.py line 77). -/
def tokensOver3 (name : String) : List String :=
  (name.splitOn " ").filter (fun t => 3 < t.length)

/-- The `for term in key_terms: ... break` loop of
`find_products_by_names`: first token with a non-empty search result. -/
def firstTokenHit (search : String → List String) : List String → Option String
  | [] => none
  | t :: ts =>
    match search t with
    | i :: _ => some i
    | [] => firstTokenHit search ts

/-- Shallow embedding of `CompareTools.find_products_by_names`
(compare_tools.py lines 61-84): per name, the first hit for the full name,
else the first hit among its tokens longer than 3 characters, else
nothing. -/
def findProductsByNames (search : String → List String)
    (names : List String) : List String :=
  names.foldl (fun acc name =>
    match search name with
    | i :: _ => acc ++ [i]
    | [] =>
      match firstTokenHit search (tokensOver3 name) with
      | some i => acc ++ [i]
      | none => acc) []

/-- The dictionary returned by `CompareAgent.process`. -/
structure CompareAgentResult where
  comparison : Option Comparisons
  recommendation : Option Recommendation
  thinking : List String
  success : Bool
  error : Option String
deriving Repr

/-- Budget vocabulary switching the weights to price-heavy
(compare_agent.py line 107). -/
def budgetWords : List (List Char) :=
  ["cheap".data, "budget".data, "affordable".data, "save money".data,
   "value".data]

/-- Quality vocabulary switching the weights to rating-heavy
(compare_agent.py line 110). -/
def qualityWords : List (List Char) :=
  ["best".data, "quality".data, "top".data, "premium".data,
   "highest rated".data]

/-- Weight selection of `CompareAgent.process` (compare_agent.py lines
102-112): balanced unless budget or quality vocabulary appears in a
non-empty query. -/
def compareCriteria (query : String) : Criteria :=
  if query.data ≠ [] then
    (if containsAny (lowerStr query.data) budgetWords then ⟨7/10, 3/10⟩
     else if containsAny (lowerStr query.data) qualityWords then ⟨3/10, 7/10⟩
     else ⟨1/2, 1/2⟩)
  else ⟨1/2, 1/2⟩

/-- The criteria-selection thinking step, when one is emitted. -/
def criteriaSteps (query : String) : List String :=
  if query.data ≠ [] then
    (if containsAny (lowerStr query.data) budgetWords then
      ["💰 Prioritizing budget-friendly options"]
     else if containsAny (lowerStr query.data) qualityWords then
      ["⭐ Prioritizing quality and ratings"]
     else [])
  else []

/-- The tail of `CompareAgent.process` once the candidate id list is known
(compare_agent.py lines 81-124): fewer than 2 ids is a terminal failure,
more than 5 are truncated, then comparison, criteria and recommendation.
Reading `recommended_name` off the no-products recommendation dictionary
raises a `KeyError`, modelled as the `Except.error` case. -/
def compareAgentWithIds (env : CompareEnv) (query : String)
    (steps0 : List String) (ids : List String) :
    Except String CompareAgentResult :=
  if ids.length < 2 then
    .ok { comparison := none, recommendation := none
          thinking := steps0 ++ ["⚠️ Need at least 2 products to compare"]
          success := false
          error := some "Insufficient products for comparison" }
  else
    let truncSteps := if 5 < ids.length then
        ["⚠️ Too many products, limiting to top 5"] else []
    let ids2 := if 5 < ids.length then ids.take 5 else ids
    let steps1 := steps0 ++ truncSteps ++
      ["🔄 Comparing " ++ toString ids2.length ++ " products...",
       "📊 Gathering product details and reviews..."]
    let comparison := compareProducts env.db ids2
    let steps2 := steps1 ++
      ["✓ Compared " ++ toString comparison.products.length ++ " products"] ++
      criteriaSteps query
    match recommendBest env.db ids2 (compareCriteria query) with
    | none => .error "KeyError: recommended_name"
    | some rec =>
      .ok { comparison := some comparison, recommendation := some rec
            thinking := steps2 ++ ["🏆 Recommended: " ++ rec.recommended_name]
            success := true, error := none }

/-- Shallow embedding of `CompareAgent.process` (compare_agent.py lines
47-124): ids come from the context when present and non-empty, otherwise
from LLM name extraction followed by name resolution; an empty extraction
is a terminal failure. -/
def compareAgentProcess (env : CompareEnv) (query : String)
    (ctx : Option (List String)) : Except String CompareAgentResult :=
  let steps0 := ["📊 Analyzing query for product information needs..."]
  let ids0 := match ctx with
    | some ctxIds => ctxIds
    | none => []
  if ids0.isEmpty then
    (if env.extractNames.isEmpty then
      .ok { comparison := none, recommendation := none
            thinking := steps0 ++ ["🔍 Extracting product names from query...",
              "⚠️ Could not extract products to compare"]
            success := false
            error := some "No products identified for comparison" }
    else
      compareAgentWithIds env query
        (steps0 ++ ["🔍 Extracting product names from query...",
          "   Found products: " ++ String.intercalate ", " env.extractNames])
        (findProductsByNames env.search env.extractNames))
  else
    compareAgentWithIds env query steps0 ids0

/-- The candidate id list `CompareAgent.process` works from: the context
ids when present and non-empty, else the ids resolved from the extracted
names (empty when extraction returned nothing). -/
def compareAvailableIds (env : CompareEnv) (ctx : Option (List String)) :
    List String :=
  let ids0 := match ctx with
    | some ctxIds => ctxIds
    | none => []
  if ids0.isEmpty then
    (if env.extractNames.isEmpty then []
     else findProductsByNames env.search env.extractNames)
  else ids0

theorem length_filterMap_buildCompared (db : CatalogDB) (ids : List String) :
    (ids.filterMap (buildCompared db)).length
      = (ids.filter (fun i => (db.product i).isSome)).length := by
  induction ids with
  | nil => rfl
  | cons i is ih =>
    cases h : db.product i with
    | none =>
      have hb : buildCompared db i = none := by
        unfold buildCompared
        rw [h]
      simp [List.filterMap_cons, List.filter_cons, hb, h, ih]
    | some pd =>
      have hb : (buildCompared db i).isSome = true := by
        unfold buildCompared
        rw [h]
        rfl
      cases hb2 : buildCompared db i with
      | none => rw [hb2] at hb; simp at hb
      | some q =>
        simp [List.filterMap_cons, List.filter_cons, hb2, h, ih]

theorem take5_trunc (ids : List String) :
    (if 5 < ids.length then ids.take 5 else ids) = ids.take 5 := by
  by_cases h5 : 5 < ids.length
  · rw [if_pos h5]
  · rw [if_neg h5, List.take_of_length_le (by omega)]

theorem compareAgentWithIds_bounds (env : CompareEnv) (query : String)
    (steps0 : List String) (ids : List String) :
    (ids.length < 2 →
      ∃ r, compareAgentWithIds env query steps0 ids = .ok r ∧
        r.success = false ∧ r.recommendation = none ∧ r.comparison = none) ∧
    (2 ≤ ids.length →
      ∀ r, compareAgentWithIds env query steps0 ids = Except.ok r →
        r.success = true ∧
        r.comparison = some (compareProducts env.db (ids.take 5))) := by
  constructor
  · intro hlt
    refine ⟨{ comparison := none, recommendation := none
              thinking := steps0 ++ ["⚠️ Need at least 2 products to compare"]
              success := false
              error := some "Insufficient products for comparison" },
      ?_, rfl, rfl, rfl⟩
    unfold compareAgentWithIds
    rw [if_pos hlt]
  · intro h2 r hr
    simp only [compareAgentWithIds] at hr
    rw [if_neg (by omega), take5_trunc] at hr
    cases hrec : recommendBest env.db (ids.take 5) (compareCriteria query) with
    | none =>
      rw [hrec] at hr
      exact Except.noConfusion hr
    | some rec =>
      rw [hrec] at hr
      injection hr with hr
      rw [← hr]
      exact ⟨rfl, rfl⟩

theorem compareAgentProcess_cases (env : CompareEnv) (query : String)
    (ctx : Option (List String)) :
    (∃ steps0, compareAgentProcess env query ctx
        = compareAgentWithIds env query steps0 (compareAvailableIds env ctx)) ∨
    (compareAvailableIds env ctx = [] ∧
      ∃ r, compareAgentProcess env query ctx = .ok r ∧
        r.success = false ∧ r.recommendation = none ∧ r.comparison = none) := by
  cases ctx with
  | none =>
    by_cases hn : env.extractNames.isEmpty
    · right
      refine ⟨by simp [compareAvailableIds, hn],
        { comparison := none, recommendation := none
          thinking := ["📊 Analyzing query for product information needs...",
            "🔍 Extracting product names from query...",
            "⚠️ Could not extract products to compare"]
          success := false
          error := some "No products identified for comparison" },
        ?_, rfl, rfl, rfl⟩
      simp [compareAgentProcess, hn]
    · left
      refine ⟨["📊 Analyzing query for product information needs...",
        "🔍 Extracting product names from query...",
        "   Found products: " ++ String.intercalate ", " env.extractNames], ?_⟩
      simp [compareAgentProcess, compareAvailableIds, hn]
  | some l =>
    by_cases h0 : l.isEmpty
    · by_cases hn : env.extractNames.isEmpty
      · right
        refine ⟨by simp [compareAvailableIds, h0, hn],
          { comparison := none, recommendation := none
            thinking := ["📊 Analyzing query for product information needs...",
              "🔍 Extracting product names from query...",
              "⚠️ Could not extract products to compare"]
            success := false
            error := some "No products identified for comparison" },
          ?_, rfl, rfl, rfl⟩
        simp [compareAgentProcess, h0, hn]
      · left
        refine ⟨["📊 Analyzing query for product information needs...",
          "🔍 Extracting product names from query...",
          "   Found products: " ++ String.intercalate ", " env.extractNames], ?_⟩
        simp [compareAgentProcess, compareAvailableIds, h0, hn]
    · left
      refine ⟨["📊 Analyzing query for product information needs..."], ?_⟩
      simp [compareAgentProcess, compareAvailableIds, h0]

/-- Claim C3: `CompareAgent.process` builds a comparison only from between
2 and 5 candidate ids — fewer than 2 available ids (from context or name
resolution) yields success=false with neither comparison nor
recommendation constructed, and whenever a result is produced from 2 or
more ids the comparison is over the first 5 ids only (silent truncation
beyond 5). -/
theorem compare_agent_bounds (env : CompareEnv) (query : String)
    (ctx : Option (List String)) :
    ((compareAvailableIds env ctx).length < 2 →
      ∃ r, compareAgentProcess env query ctx = .ok r ∧
        r.success = false ∧ r.recommendation = none ∧ r.comparison = none) ∧
    (2 ≤ (compareAvailableIds env ctx).length →
      ∀ r, compareAgentProcess env query ctx = Except.ok r →
        r.success = true ∧
        r.comparison =
          some (compareProducts env.db ((compareAvailableIds env ctx).take 5))) := by
  rcases compareAgentProcess_cases env query ctx with
    ⟨steps0, heq⟩ | ⟨hnil, r, hr, hs, hrec, hcomp⟩
  · rw [heq]
    exact compareAgentWithIds_bounds env query steps0 (compareAvailableIds env ctx)
  · constructor
    · intro _
      exact ⟨r, hr, hs, hrec, hcomp⟩
    · intro h2
      rw [hnil] at h2
      simp at h2

/-- A catalog in which only the id "a" resolves, and an environment in
which extraction and search return nothing. -/
def dbOneProduct : CatalogDB :=
  { product := fun pid =>
      if pid = "a" then
        some { name := "A", brand := "BA", category := "C", price := 10, specs := [] }
      else none
    reviews := fun _ => [] }

/-- A compare environment over `dbOneProduct` with inert extraction and
search, exercised through context-provided ids only. -/
def envOneProduct : CompareEnv :=
  { db := dbOneProduct, extractNames := [], search := fun _ => [] }

/-- Witness for C3: with a single context id the agent fails with neither
comparison nor recommendation. -/
theorem compare_agent_bounds_witness :
    ∃ r, compareAgentProcess envOneProduct "compare a" (some ["a"]) = .ok r ∧
      r.success = false ∧ r.recommendation = none ∧ r.comparison = none :=
  (compare_agent_bounds envOneProduct "compare a" (some ["a"])).1 (by decide)

/-- Claim C10: ids that do not resolve are silently skipped inside
`compare_products`; when at least 2 ids are passed through the context but
exactly 1 of the (up to 5) compared ids resolves, `CompareAgent.process`
still returns success=true with a comparison whose products list has a
single entry, below the 2-product shape downstream consumers expect. -/
theorem compare_agent_single_resolved (env : CompareEnv) (query : String)
    (ids : List String) (h2 : 2 ≤ ids.length)
    (h1 : ((ids.take 5).filter (fun i => (env.db.product i).isSome)).length = 1) :
    ∃ r, compareAgentProcess env query (some ids) = .ok r ∧
      r.success = true ∧
      ∃ C, r.comparison = some C ∧ C.products.length = 1 := by
  have h0 : ids.isEmpty = false := by
    cases ids with
    | nil => simp at h2
    | cons a l => rfl
  have hproc : compareAgentProcess env query (some ids)
      = compareAgentWithIds env query
          ["📊 Analyzing query for product information needs..."] ids := by
    simp [compareAgentProcess, h0]
  have hlen : (compareProducts env.db (ids.take 5)).products.length = 1 := by
    rw [compareProducts_products, length_filterMap_buildCompared]
    exact h1
  obtain ⟨p, hp⟩ : ∃ p, (compareProducts env.db (ids.take 5)).products = [p] := by
    cases hl : (compareProducts env.db (ids.take 5)).products with
    | nil => rw [hl] at hlen; simp at hlen
    | cons a l =>
      rw [hl] at hlen
      cases l with
      | nil => exact ⟨a, rfl⟩
      | cons b l2 => simp at hlen
  obtain ⟨rec, hrec⟩ : ∃ rec,
      recommendBest env.db (ids.take 5) (compareCriteria query) = some rec := by
    unfold recommendBest
    rw [hp]
    exact ⟨_, rfl⟩
  rw [hproc]
  simp only [compareAgentWithIds]
  rw [if_neg (by omega), take5_trunc, hrec]
  exact ⟨_, rfl, rfl, compareProducts env.db (ids.take 5), rfl, hlen⟩

/-- Witness for C10: two context ids of which only "a" resolves. -/
theorem compare_agent_single_resolved_witness :
    ∃ r, compareAgentProcess envOneProduct "compare a and b" (some ["a", "b"])
        = .ok r ∧
      r.success = true ∧
      ∃ C, r.comparison = some C ∧ C.products.length = 1 :=
  compare_agent_single_resolved envOneProduct "compare a and b" ["a", "b"]
    (by decide) (by decide)

/-- What a specialist call returns to the router: its thinking steps, its
success flag, and (for the filter agent) the ids of its results.  A
specialist that raises is an `Except.error` carrying the message. -/
structure AgentReply where
  thinking : List String
  success : Bool
deriving Repr

/-- The filter reply additionally carries the result ids the router seeds
into the context on success. -/
structure FilterReply where
  thinking : List String
  success : Bool
  resultIds : List String
deriving Repr

/-- Environment of `Orchestrator.process`: the outcome of each specialist
call (these hit databases, vector indexes and an LLM, so they are
environment-supplied and may raise), and of answer synthesis (which calls
the specialists' formatters and may raise too). -/
structure OrchEnv where
  compareAgent : Except String AgentReply
  graphAgent : Except String AgentReply
  reviewAgent : Option (List String) → Except String AgentReply
  filterAgent : Except String FilterReply
  synthesize : Except String String

/-- The Python name of each intent tag, used in the detected-intent trace
step. -/
def intentTypeName : IntentType → String
  | .comparison => "comparison"
  | .counting => "counting"
  | .spec_search => "spec_search"
  | .filtered_search => "filtered_search"
  | .complex_search => "complex_search"
  | .review_search => "review_search"
  | .general => "general"

/-- Steps and agents accumulated so far by the router (the mutable
`execution_trace` entries it touches). -/
structure RouteAcc where
  steps : List String
  agents : List String
deriving Repr

/-- One specialist invocation inside `_route_query`: append the routing
step, call the agent, then record its name and extend the steps with its
thinking; an exception leaves the accumulator as it was after the routing
step (the Python lists were already mutated) and aborts. -/
def callAgent (name routeMsg : String) (r : Except String AgentReply)
    (acc : RouteAcc) : Except (RouteAcc × String) RouteAcc :=
  let acc1 : RouteAcc := { acc with steps := acc.steps ++ [routeMsg] }
  match r with
  | .error m => .error (acc1, m)
  | .ok rep => .ok { steps := acc1.steps ++ rep.thinking
                     agents := acc1.agents ++ [name] }

/-- Shallow embedding of `Orchestrator._route_query` (orchestrator.py
lines 199-277): one route per intent tag; the complex-search route runs
the filter agent, seeds `context.product_ids` from its results on
success, then runs the review agent with that context. -/
def routeQuery (intent : Intent) (env : OrchEnv) (acc : RouteAcc) :
    Except (RouteAcc × String) RouteAcc :=
  match intent.type with
  | .comparison =>
    callAgent "Compare Agent" "📊 Orchestrator: Routing to Compare Agent..."
      env.compareAgent acc
  | .counting =>
    callAgent "Graph Agent" "🔢 Orchestrator: Routing to Graph Agent (counting)..."
      env.graphAgent acc
  | .spec_search =>
    callAgent "Graph Agent" "📐 Orchestrator: Routing to Graph Agent (specs)..."
      env.graphAgent acc
  | .review_search =>
    callAgent "Review Agent" "⭐ Orchestrator: Routing to Review Agent..."
      (env.reviewAgent none) acc
  | .complex_search =>
    let afterFilter : Except (RouteAcc × String) (RouteAcc × Option (List String)) :=
      if intent.needs_filtering then
        let acc1 : RouteAcc := { acc with steps := acc.steps ++
          ["💰 Orchestrator: Routing to Filter Agent..."] }
        match env.filterAgent with
        | .error m => .error (acc1, m)
        | .ok rep =>
          .ok ({ steps := acc1.steps ++ rep.thinking
                 agents := acc1.agents ++ ["Filter Agent"] },
               if rep.success then some rep.resultIds else none)
      else .ok (acc, none)
    match afterFilter with
    | .error e => .error e
    | .ok (acc2, ctx) =>
      if intent.needs_reviews then
        callAgent "Review Agent" "⭐ Orchestrator: Routing to Review Agent..."
          (env.reviewAgent ctx) acc2
      else .ok acc2
  | .filtered_search =>
    let acc1 : RouteAcc := { acc with steps := acc.steps ++
      ["💰 Orchestrator: Routing to Filter Agent..."] }
    match env.filterAgent with
    | .error m => .error (acc1, m)
    | .ok rep =>
      .ok { steps := acc1.steps ++ rep.thinking
            agents := acc1.agents ++ ["Filter Agent"] }
  | .general =>
    callAgent "Graph Agent" "📦 Orchestrator: Routing to Graph Agent..."
      env.graphAgent acc

/-- The execution trace returned by `Orchestrator.process`. -/
structure ExecutionTrace where
  query : String
  session_id : String
  steps : List String
  agents_used : List String
  final_answer : String
  success : Bool
deriving Repr

/-- The fixed generic fallback answer of the orchestrator's exception
handler (orchestrator.py lines 136-139). -/
def fallbackAnswer : String :=
  "I encountered an error processing your request. Please try rephrasing your question or ask about specific products, brands, or categories."

/-- Shallow embedding of `Orchestrator.process` (orchestrator.py lines
94-142): classify, route, synthesize inside a catch-all; any exception is
converted into a single appended error step, success=false and the fixed
fallback answer. -/
def orchestratorProcess (query session_id : String) (env : OrchEnv) :
    ExecutionTrace :=
  let intent := analyzeIntent query.data
  let steps1 := ["🎯 Orchestrator: Analyzing query intent...",
    "🔍 Detected intent: " ++ intentTypeName intent.type]
  match routeQuery intent env { steps := steps1, agents := [] } with
  | .error (acc, msg) =>
    { query := query, session_id := session_id
      steps := acc.steps ++ ["❌ Error: " ++ msg]
      agents_used := acc.agents
      final_answer := fallbackAnswer, success := false }
  | .ok acc =>
    let steps2 := acc.steps ++ ["✨ Orchestrator: Synthesizing final answer..."]
    match env.synthesize with
    | .error msg =>
      { query := query, session_id := session_id
        steps := steps2 ++ ["❌ Error: " ++ msg]
        agents_used := acc.agents
        final_answer := fallbackAnswer, success := false }
    | .ok ans =>
      { query := query, session_id := session_id
        steps := steps2, agents_used := acc.agents
        final_answer := ans, success := true }

/-- The pipeline ran without any exception: routing succeeded and so did
synthesis. -/
def PipelineOk (query : String) (env : OrchEnv) : Prop :=
  ∃ acc ans,
    routeQuery (analyzeIntent query.data) env
      { steps := ["🎯 Orchestrator: Analyzing query intent...",
          "🔍 Detected intent: "
            ++ intentTypeName (analyzeIntent query.data).type]
        agents := [] } = .ok acc ∧
    env.synthesize = .ok ans

/-- Claim C4: `Orchestrator.process` is total over every environment — it
always returns a trace — and whenever any stage (routing, a specialist
call, or synthesis) raises, the trace has success=false, the fixed generic
fallback answer, and exactly one appended error step at the end. -/
theorem orchestrator_catches (query session_id : String) (env : OrchEnv)
    (hfail : ¬ PipelineOk query env) :
    (orchestratorProcess query session_id env).success = false ∧
    (orchestratorProcess query session_id env).final_answer = fallbackAnswer ∧
    ∃ pre msg, (orchestratorProcess query session_id env).steps
        = pre ++ ["❌ Error: " ++ msg] := by
  cases hr : routeQuery (analyzeIntent query.data) env
      { steps := ["🎯 Orchestrator: Analyzing query intent...",
          "🔍 Detected intent: "
            ++ intentTypeName (analyzeIntent query.data).type]
        agents := [] } with
  | error e =>
    obtain ⟨acc, msg⟩ := e
    refine ⟨?_, ?_, acc.steps, msg, ?_⟩ <;> simp [orchestratorProcess, hr]
  | ok acc =>
    cases hs : env.synthesize with
    | error msg =>
      refine ⟨?_, ?_,
        acc.steps ++ ["✨ Orchestrator: Synthesizing final answer..."],
        msg, ?_⟩ <;> simp [orchestratorProcess, hr, hs]
    | ok ans =>
      exact absurd ⟨acc, ans, hr, hs⟩ hfail

/-- An environment in which every external call raises. -/
def envAllFail : OrchEnv :=
  { compareAgent := .error "boom", graphAgent := .error "boom"
    reviewAgent := fun _ => .error "boom", filterAgent := .error "boom"
    synthesize := .error "boom" }

/-- Witness for C4 at a concrete query and an environment whose calls all
raise. -/
theorem orchestrator_catches_witness :
    (orchestratorProcess "hello" "s1" envAllFail).success = false ∧
    (orchestratorProcess "hello" "s1" envAllFail).final_answer
      = fallbackAnswer ∧
    ∃ pre msg, (orchestratorProcess "hello" "s1" envAllFail).steps
        = pre ++ ["❌ Error: " ++ msg] :=
  orchestrator_catches "hello" "s1" envAllFail
    (fun h => by
      obtain ⟨_, _, _, hs⟩ := h
      simp [envAllFail] at hs)

/-- The `(?:,\d+)*` tail of the price regexes: greedily consume groups of
a comma followed by at least one digit, returning the digits (commas
dropped, as `replace(",", "")` does) and the rest.  Fuel is the length of
the input. -/
def commaGroups : ℕ → List Char → List Char × List Char
  | 0, s => ([], s)
  | fuel + 1, s =>
    match s with
    | ',' :: rest =>
      let ds := rest.takeWhile Char.isDigit
      if ds = [] then ([], s)
      else
        let p := commaGroups fuel (rest.dropWhile Char.isDigit)
        (ds ++ p.1, p.2)
    | _ => ([], s)

/-- Digits to the number they denote. -/
def natOfDigits (ds : List Char) : ℕ :=
  ds.foldl (fun n c => 10 * n + (c.toNat - '0'.toNat)) 0

/-- Python `\s*`: greedily skip whitespace. -/
def skipSpaces (s : List Char) : List Char :=
  s.dropWhile Char.isWhitespace

/-- `\d+(?:,\d+)*` with the commas stripped: the captured number and the
rest of the input.  The group is greedy and nothing follows it in any of
the price patterns it ends, so greedy matching is exact. -/
def parseNumber (s : List Char) : Option (ℕ × List Char) :=
  let ds := s.takeWhile Char.isDigit
  if ds = [] then none
  else
    let rest := s.dropWhile Char.isDigit
    let p := commaGroups rest.length rest
    some (natOfDigits (ds ++ p.1), p.2)

/-- `\s*₹?\s*(\d+(?:,\d+)*)`: the numeric tail shared by the four price
patterns of `FilterAgent._extract_constraints`.  The greedy deterministic
reading is equivalent to the regex because `₹` is not whitespace or a
digit. -/
def parsePriceTail (s : List Char) : Option (ℕ × List Char) :=
  let s1 := skipSpaces s
  let s2 := match s1 with
    | '₹' :: r => r
    | _ => s1
  parseNumber (skipSpaces s2)

/-- `under|below|less than|max|maximum` in the order of the alternation
(filter_agent.py line 126). -/
def underKeywords : List (List Char) :=
  ["under".data, "below".data, "less than".data, "max".data, "maximum".data]

/-- `above|over|more than|min|minimum` (filter_agent.py line 131). -/
def aboveKeywords : List (List Char) :=
  ["above".data, "over".data, "more than".data, "min".data, "minimum".data]

/-- At one position, try the alternation's keywords in order — exactly the
regex engine's backtracking over the alternation — each followed by the
numeric tail. -/
def tryKeywordsAt (kws : List (List Char)) (s : List Char) : Option ℕ :=
  kws.findSome? (fun kw =>
    if kw.isPrefixOf s then (parsePriceTail (s.drop kw.length)).map Prod.fst
    else none)

/-- `re.search` for a keyword alternation followed by the numeric tail:
positions left to right, alternatives in order at each position. -/
def searchPrice (kws : List (List Char)) : List Char → Option ℕ
  | [] => none
  | c :: rest =>
    match tryKeywordsAt kws (c :: rest) with
    | some n => some n
    | none => searchPrice kws rest

/-- The match of the `between ₹A and/to ₹B` pattern anchored at the start
of `s` (filter_agent.py line 136). -/
def parseBetweenAt (s : List Char) : Option (ℕ × ℕ) :=
  if "between".data.isPrefixOf s then
    match parsePriceTail (s.drop 7) with
    | none => none
    | some (a, rest) =>
      let r1 := skipSpaces rest
      let r2 : Option (List Char) :=
        if "and".data.isPrefixOf r1 then some (r1.drop 3)
        else if "to".data.isPrefixOf r1 then some (r1.drop 2)
        else none
      match r2 with
      | none => none
      | some r3 =>
        match parsePriceTail r3 with
        | none => none
        | some (b, _) => some (a, b)
  else none

/-- `re.search` for the between pattern. -/
def searchBetween : List Char → Option (ℕ × ℕ)
  | [] => none
  | c :: rest =>
    match parseBetweenAt (c :: rest) with
    | some ab => some ab
    | none => searchBetween rest

/-- The match of the `around ₹N` pattern anchored at the start of `s`
(filter_agent.py line 143). -/
def parseAroundAt (s : List Char) : Option ℕ :=
  if "around".data.isPrefixOf s then
    (parsePriceTail (s.drop 6)).map Prod.fst
  else none

/-- `re.search` for the around pattern. -/
def searchAround : List Char → Option ℕ
  | [] => none
  | c :: rest =>
    match parseAroundAt (c :: rest) with
    | some n => some n
    | none => searchAround rest

/-- The constraint dictionary of `FilterAgent._extract_constraints`;
`max_price := none` models the initial `float('inf')`. -/
structure FilterConstraints where
  min_price : ℚ
  max_price : Option ℚ
  brand : Option String
  category : Option String
deriving DecidableEq, Repr

/-- Shallow embedding of `FilterAgent._extract_constraints`
(filter_agent.py lines 112-161) over the lowercased query: the four price
rules assign in order (under/above, then between overriding both bounds,
then around overriding again), then brand (first known brand that is a
substring, unless the context supplied one) and category (synonym map on
the raw query, unless the context supplied one).  The Python floats
`price * 0.8` and `price * 1.2` are exact for the claim's inputs. -/
def extractConstraints (brands : List String)
    (mapCategory : String → Option String)
    (ctxBrand ctxCategory : Option String) (query : String) :
    FilterConstraints :=
  let q := lowerStr query.data
  let c0 : FilterConstraints :=
    { min_price := 0, max_price := none
      brand := ctxBrand, category := ctxCategory }
  let c1 := match searchPrice underKeywords q with
    | some n => { c0 with max_price := some (n : ℚ) }
    | none => c0
  let c2 := match searchPrice aboveKeywords q with
    | some n => { c1 with min_price := (n : ℚ) }
    | none => c1
  let c3 := match searchBetween q with
    | some ab => { c2 with min_price := (ab.1 : ℚ)
                           max_price := some (ab.2 : ℚ) }
    | none => c2
  let c4 := match searchAround q with
    | some n => { c3 with min_price := (n : ℚ) * (8/10)
                          max_price := some ((n : ℚ) * (12/10)) }
    | none => c3
  let c5 := match c4.brand with
    | some _ => c4
    | none => { c4 with
        brand := brands.find? (fun b => containsSub (lowerStr b.data) q) }
  match c5.category with
  | some _ => c5
  | none => { c5 with category := mapCategory query }

example : searchPrice underKeywords (lowerStr "under ₹50,000".data)
    = some 50000 := by decide
example : searchBetween (lowerStr "between ₹20,000 and ₹40,000".data)
    = some (20000, 40000) := by decide
example : searchAround (lowerStr "around ₹10,000".data) = some 10000 := by decide
example : searchPrice underKeywords (lowerStr "maximum 500".data)
    = some 500 := by decide
example : searchPrice underKeywords (lowerStr "between ₹20,000 and ₹40,000".data)
    = none := by decide

/-- Claim C7: the filter constraint extraction parses "under ₹50,000" to
[0, 50000], "between ₹20,000 and ₹40,000" to [20000, 40000] and
"around ₹10,000" to [8000, 12000], accepting comma-grouped digits; and
whenever a between phrase matches (and no around phrase does), its bounds
override whatever the under/above rules assigned. -/
theorem filter_price_extraction :
    ((extractConstraints [] (fun _ => none) none none "under ₹50,000").min_price = 0 ∧
     (extractConstraints [] (fun _ => none) none none "under ₹50,000").max_price
       = some 50000) ∧
    ((extractConstraints [] (fun _ => none) none none
        "between ₹20,000 and ₹40,000").min_price = 20000 ∧
     (extractConstraints [] (fun _ => none) none none
        "between ₹20,000 and ₹40,000").max_price = some 40000) ∧
    ((extractConstraints [] (fun _ => none) none none "around ₹10,000").min_price
       = 8000 ∧
     (extractConstraints [] (fun _ => none) none none "around ₹10,000").max_price
       = some 12000) ∧
    (∀ (brands : List String) (mapCategory : String → Option String)
        (ctxBrand ctxCategory : Option String) (query : String) (a b : ℕ),
      searchBetween (lowerStr query.data) = some (a, b) →
      searchAround (lowerStr query.data) = none →
      (extractConstraints brands mapCategory ctxBrand ctxCategory
          query).min_price = (a : ℚ) ∧
      (extractConstraints brands mapCategory ctxBrand ctxCategory
          query).max_price = some (b : ℚ)) := by
  refine ⟨?_, ?_, ?_, ?_⟩
  · have hu : searchPrice underKeywords (lowerStr "under ₹50,000".data)
        = some 50000 := by decide
    have ha : searchPrice aboveKeywords (lowerStr "under ₹50,000".data)
        = none := by decide
    have hb : searchBetween (lowerStr "under ₹50,000".data) = none := by decide
    have hr : searchAround (lowerStr "under ₹50,000".data) = none := by decide
    simp [extractConstraints, hu, ha, hb, hr]
  · have hu : searchPrice underKeywords
        (lowerStr "between ₹20,000 and ₹40,000".data) = none := by decide
    have ha : searchPrice aboveKeywords
        (lowerStr "between ₹20,000 and ₹40,000".data) = none := by decide
    have hb : searchBetween (lowerStr "between ₹20,000 and ₹40,000".data)
        = some (20000, 40000) := by decide
    have hr : searchAround (lowerStr "between ₹20,000 and ₹40,000".data)
        = none := by decide
    simp [extractConstraints, hu, ha, hb, hr]
  · have hu : searchPrice underKeywords (lowerStr "around ₹10,000".data)
        = none := by decide
    have ha : searchPrice aboveKeywords (lowerStr "around ₹10,000".data)
        = none := by decide
    have hb : searchBetween (lowerStr "around ₹10,000".data) = none := by decide
    have hr : searchAround (lowerStr "around ₹10,000".data)
        = some 10000 := by decide
    simp [extractConstraints, hu, ha, hb, hr]
    norm_num
  · intro brands mapCategory ctxBrand ctxCategory query a b hb hr
    simp only [extractConstraints, hb, hr]
    cases searchPrice underKeywords (lowerStr query.data) <;>
      cases searchPrice aboveKeywords (lowerStr query.data) <;>
      cases ctxBrand <;>
      cases ctxCategory <;>
      simp

/-- Witness for the override part of C7: a query with both an under phrase
and a between phrase takes the between bounds. -/
theorem filter_price_extraction_witness :
    (extractConstraints [] (fun _ => none) none none
        "under ₹5 between ₹1 and ₹2").min_price = ((1:ℕ) : ℚ) ∧
    (extractConstraints [] (fun _ => none) none none
        "under ₹5 between ₹1 and ₹2").max_price = some ((2:ℕ) : ℚ) :=
  filter_price_extraction.2.2.2 [] (fun _ => none) none none
    "under ₹5 between ₹1 and ₹2" 1 2 (by decide) (by decide)

/-- One hit of `vector_tools.search_reviews_semantic`: the review metadata
entry (product id, rating, text). -/
structure ReviewHit where
  product_id : String
  rating : ℚ
  text : String
deriving DecidableEq, Repr

/-- One entry of the CASE 2 result list of `ReviewAgent.process`. -/
structure ReviewEntry where
  product : Option ProductData
  sentiment : Sentiment
  relevant_reviews : List ReviewHit
deriving Repr

/-- The possible outcomes of Python `list(set(xs))`: a set's iteration
order is unspecified (string hashes are randomized per process), so any
duplicate-free list with exactly the members of `xs` is a possible
result. -/
def PySetList (inp out : List String) : Prop :=
  out.Nodup ∧ ∀ x, x ∈ out ↔ x ∈ inp

/-- The CASE 2 body of `ReviewAgent.process` (review_agent.py lines
111-127) after the set conversion produced the id order `uniqueIds`: the
first 5 unique ids are reported, each with its product lookup, sentiment
summary, and the first 2 of its hits. -/
def reviewCase2Results (db : CatalogDB) (hits : List ReviewHit)
    (uniqueIds : List String) : List ReviewEntry :=
  (uniqueIds.take 5).map (fun pid =>
    { product := db.product pid
      sentiment := sentimentSummary db pid
      relevant_reviews := (hits.filter (fun r => r.product_id = pid)).take 2 })

/-- Modelled from the spec: deduplication by product id preserving the
first-seen order of the hits, which is what claim C9 asserts the code
does. -/
def specFirstSeenDedup (l : List String) : List String :=
  l.foldl (fun acc x => if x ∈ acc then acc else acc ++ [x]) []

/-- Amended C9: in the explicit review-vocabulary path, the reported
products are at most 5, their ids are duplicate-free and all come from the
semantic search hits, and each entry is built from its id as the code
does — but the id order is whatever the Python set iteration produced, not
necessarily the first-seen order of the hits. -/
theorem review_case2_dedup_cap (db : CatalogDB) (hits : List ReviewHit)
    (out : List String)
    (hset : PySetList (hits.map (fun r => r.product_id)) out) :
    (reviewCase2Results db hits out).length ≤ 5 ∧
    (out.take 5).Nodup ∧
    (∀ pid ∈ out.take 5, pid ∈ hits.map (fun r => r.product_id)) := by
  obtain ⟨hnd, hmem⟩ := hset
  refine ⟨?_, ?_, ?_⟩
  · simp only [reviewCase2Results, List.length_map, List.length_take]
    omega
  · exact (List.take_sublist 5 out).nodup hnd
  · intro pid hp
    exact (hmem pid).mp (List.mem_of_mem_take hp)

/-- The hits used in the C9 counterexample and witness: two hits for the
distinct products "a" then "b", in that relevance order. -/
def reviewHitsAB : List ReviewHit :=
  [{ product_id := "a", rating := 4, text := "ta" },
   { product_id := "b", rating := 5, text := "tb" }]

/-- Witness for the amended C9 at the concrete hits and one admissible set
order. -/
theorem review_case2_dedup_cap_witness :
    (reviewCase2Results dbNoReviews reviewHitsAB ["b", "a"]).length ≤ 5 ∧
    ((["b", "a"] : List String).take 5).Nodup ∧
    (∀ pid ∈ (["b", "a"] : List String).take 5,
      pid ∈ reviewHitsAB.map (fun r => r.product_id)) :=
  review_case2_dedup_cap dbNoReviews reviewHitsAB ["b", "a"]
    ⟨by decide, fun x => by simp [reviewHitsAB, or_comm]⟩

/-- Counterexample to claim C9 as stated: the code deduplicates with
`list(set(...))`, whose iteration order is unspecified; the reversed order
["b", "a"] is an admissible outcome for hits seen in the order a, b, and
it differs from the first-seen order the claim asserts. -/
theorem review_case2_order_counterexample :
    PySetList (reviewHitsAB.map (fun r => r.product_id)) ["b", "a"] ∧
    specFirstSeenDedup (reviewHitsAB.map (fun r => r.product_id))
      = ["a", "b"] ∧
    (["b", "a"] : List String) ≠ ["a", "b"] ∧
    (reviewCase2Results dbNoReviews reviewHitsAB ["b", "a"]).length = 2 := by
  refine ⟨⟨by decide, fun x => by simp [reviewHitsAB, or_comm]⟩,
    by decide, by decide, by decide⟩
